import Mathlib

/-!
Verification of the EMG-driven Tello control core (`tello_emg_control.py`).

The control-loop logic is embedded shallowly: the 10×2 numpy EMG buffer becomes a
length-10 list of rational pairs, `np.roll` + last-row assignment becomes
drop-one-and-append, Python floats become rationals, Python `int()` becomes
truncation toward zero, and each loop body becomes a pure state-transformer that
also reports the rc-control commands it sends.
-/

namespace TelloEMG

/-- Tri-state movement intent: the strings "forward" / "backward" / "hover" returned
by `process_joystick` and `process_raw_emg`. -/
inductive Command
  | forward
  | backward
  | hover
deriving DecidableEq, Repr

/-- A 4-axis rc-control actuation, the argument tuple of `drone.send_rc_control`
(left_right, forward_backward, up_down, yaw). -/
abbrev Vec := ℤ × ℤ × ℤ × ℤ

/-- Python `int()` applied to a rational: truncation toward zero. -/
def pyInt (q : ℚ) : ℤ := if 0 ≤ q then ⌊q⌋ else ⌈q⌉

/-- Arithmetic mean of a list of rationals (`np.mean`). -/
def mean (l : List ℚ) : ℚ := l.sum / l.length

/-- Effect on the buffer of `np.roll(self.emg_buffer, -1, axis=0)` followed by
overwriting the last row: the oldest row is dropped and the new row appended. -/
def rollPush (buf : List (ℚ × ℚ)) (row : ℚ × ℚ) : List (ℚ × ℚ) :=
  buf.drop 1 ++ [row]

/-- The zero-initialized buffer `self.emg_buffer = np.zeros((self.emg_buffer_size, 2))`
with `emg_buffer_size = 10`. -/
def emgBufferInit : List (ℚ × ℚ) := List.replicate 10 (0, 0)

/-- Threshold part of `process_joystick` (lines 245-251): backward below -0.2,
forward above 0.2, hover inside the closed band; intensities clamp at 1. -/
def processJoystickClassify (x : ℚ) : Command × ℚ :=
  if x < -(1/5) then (.backward, min |x| 1)
  else if x > 1/5 then (.forward, min |x| 1)
  else (.hover, 0)

/-- `process_joystick`: push the sample, smooth by the mean of column 0 of the full
buffer, then classify. -/
def processJoystick (buf : List (ℚ × ℚ)) (sample : ℚ × ℚ) :
    List (ℚ × ℚ) × Command × ℚ :=
  let buf2 := rollPush buf sample
  (buf2, processJoystickClassify (mean (buf2.map Prod.fst)))

/-- Input shape accepted by `process_raw_emg`: a bare scalar or a pulled sample
list/tuple. -/
inductive EmgInput
  | scalar (v : ℚ)
  | seq (l : List ℚ)

/-- Value selection of `process_raw_emg` (lines 257-260): element 0 of a nonempty
list/tuple, otherwise the input itself. Handing the empty list onward makes the
numpy row assignment `emg_buffer[-1] = [0, value]` fail, modelled as `none`. -/
def extractValue : EmgInput → Option ℚ
  | .scalar v => some v
  | .seq l => l.head?

/-- Threshold part of `process_raw_emg` (lines 273-278, forward tested first). -/
def rawClassify (n : ℚ) : Command × ℚ :=
  if n > 1/5 then (.forward, min n 1)
  else if n < -(1/5) then (.backward, min |n| 1)
  else (.hover, 0)

/-- Body of `process_raw_emg` after value selection: store `[0, value]` in the last
buffer row (column 1 holds the signal), smooth by the mean of column 1, normalize by
500, threshold. -/
def processRawEmgCore (buf : List (ℚ × ℚ)) (v : ℚ) :
    List (ℚ × ℚ) × Command × ℚ :=
  let buf2 := rollPush buf (0, v)
  (buf2, rawClassify (mean (buf2.map Prod.snd) / 500))

/-- `process_raw_emg` over either input shape. -/
def processRawEmg (buf : List (ℚ × ℚ)) (inp : EmgInput) :
    Option (List (ℚ × ℚ) × Command × ℚ) :=
  (extractValue inp).map (processRawEmgCore buf)

/-- Dispatch part of the EMG control loop body (lines 346-357): scale the intensity
by the configured speed with Python `int()` truncation and send one rc command, but
only when `is_flying`; when grounded the whole send block is skipped and nothing is
sent. -/
def dispatchStep (flying : Bool) (c : Command) (intensity : ℚ) (speed : ℤ) :
    Option Vec :=
  let speedScaled := pyInt ((speed : ℚ) * intensity)
  if flying then
    some (match c with
      | .forward => (0, speedScaled, 0, 0)
      | .backward => (0, -speedScaled, 0, 0)
      | .hover => (0, 0, 0, 0))
  else none

/-- The mutable state the EMG control loop touches: the shared buffer, the shared
`is_flying` flag (read only here) and the configured speed (30). -/
structure EmgState where
  buffer : List (ℚ × ℚ)
  is_flying : Bool
  speed : ℤ
deriving DecidableEq, Repr

/-- One iteration of the EMG control loop body (lines 330-359) on a pulled sample:
an empty (falsy) sample is skipped; a 2-element sample takes the joystick path;
any other sample takes the raw-EMG path; the classified command is then dispatched
gated on `is_flying`. -/
def emgStep (st : EmgState) (sample : List ℚ) : EmgState × Option Vec :=
  match sample with
  | [] => (st, none)
  | [x, y] =>
      let r := processJoystick st.buffer (x, y)
      (⟨r.1, st.is_flying, st.speed⟩, dispatchStep st.is_flying r.2.1 r.2.2 st.speed)
  | v :: _ =>
      let r := processRawEmgCore st.buffer v
      (⟨r.1, st.is_flying, st.speed⟩, dispatchStep st.is_flying r.2.1 r.2.2 st.speed)

/-- The EMG control loop run over a finite sequence of pulled samples. -/
def emgRun (st : EmgState) (samples : List (List ℚ)) : EmgState :=
  samples.foldl (fun s smp => (emgStep s smp).1) st

/-- Smoothed x-axis value of a buffer: `np.mean(self.emg_buffer, axis=0)[0]`. -/
def smoothedOf (buf : List (ℚ × ℚ)) : ℚ := mean (buf.map Prod.fst)

/-- Feed a sequence of joystick samples into a fresh zero-initialized buffer. -/
def feedSamples (samples : List (ℚ × ℚ)) : List (ℚ × ℚ) :=
  samples.foldl rollPush emgBufferInit

/-- The ten x values actually averaged after feeding the samples: the last ten
elements of the initial zeros followed by the observed x values. -/
def bufferWindow (samples : List (ℚ × ℚ)) : List ℚ :=
  (List.replicate 10 (0 : ℚ) ++ samples.map Prod.fst).drop samples.length

/-- Blocking drone commands issued outside `send_rc_control`. -/
inductive DroneCall
  | takeoff
  | land
  | endSession
deriving DecidableEq, Repr

/-- Takeoff/land handling of `keyboard_control` (lines 413-427): takeoff only when
not flying, land only when flying, each updating `is_flying`. Returns the new flag
and the blocking calls issued this frame. -/
def takeoffLandStep (flying tKey lKey : Bool) : Bool × List DroneCall :=
  if tKey && !flying then (true, [.takeoff])
  else if lKey && flying then (false, [.land])
  else (flying, [])

/-- Rotation handling of `keyboard_control` (lines 429-447): two independent
if/elif blocks per frame. The clockwise condition is `keys[r] and is_flying`; the
counter-clockwise condition is `keys[r] and keys[LSHIFT] and is_flying`, which
overlaps it. Returns the new (cw, ccw) rotation flags and the rc commands issued
this frame in order. -/
def rotationStep (speed : ℤ) (flying rKey shiftKey cw ccw : Bool) :
    (Bool × Bool) × List Vec :=
  let cond1 := rKey && flying
  let out1 : List Vec :=
    if cond1 then [(0, 0, 0, speed)] else if cw then [(0, 0, 0, 0)] else []
  let cond2 := rKey && shiftKey && flying
  let out2 : List Vec :=
    if cond2 then [(0, 0, 0, -speed)] else if ccw then [(0, 0, 0, 0)] else []
  ((cond1, cond2), out1 ++ out2)

/-- Quit handling of `keyboard_control` (lines 449-455): lands if flying but never
clears `is_flying`, then stops the loop. Returns the blocking calls issued. -/
def keyboardQuitCalls (flying : Bool) : List DroneCall :=
  if flying then [.land] else []

/-- Cleanup block of `run` (lines 515-522): lands again if `is_flying` is still set,
then ends the session. -/
def runCleanupCalls (flying : Bool) : List DroneCall :=
  (if flying then [.land] else []) ++ [.endSession]

/-- Blocking calls of the whole quit path: the quit handler of `keyboard_control`
followed by the `finally` cleanup of `run`, with `is_flying` unchanged in between
because the quit handler does not clear it. -/
def quitShutdownCalls (flying : Bool) : List DroneCall :=
  keyboardQuitCalls flying ++ runCleanupCalls flying

/-- C7: issuing takeoff while already airborne, or land while already grounded,
sends no drone command and leaves the flight state unchanged. -/
theorem c7_takeoff_land_idempotent :
    takeoffLandStep true true false = (true, [])
    ∧ takeoffLandStep false false true = (false, []) := by
  decide

/-- C6 evaluation: quitting while airborne issues land twice (the quit handler lands
without clearing is_flying, then the run cleanup lands again) and endSession once,
with both land calls before endSession; the claimed exactly-one land fails. -/
theorem c6_quit_shutdown_calls :
    quitShutdownCalls true = [.land, .land, .endSession]
    ∧ (quitShutdownCalls true).count .land = 2
    ∧ (quitShutdownCalls true).count .endSession = 1 := by
  decide

/-- C9: ten joystick samples of x value -0.5 smooth to exactly -0.5, which classifies
to (backward, 0.5), and dispatching that while airborne at speed 30 sends pitch -15. -/
theorem c9_scenario_a :
    smoothedOf (feedSamples (List.replicate 10 ((-(1/2) : ℚ), 0))) = -(1/2)
    ∧ processJoystickClassify (-(1/2)) = (.backward, 1/2)
    ∧ dispatchStep true .backward (1/2) 30 = some (0, -15, 0, 0) := by
  refine ⟨?_, ?_, ?_⟩
  · norm_num [smoothedOf, feedSamples, emgBufferInit, rollPush, mean,
      List.replicate, List.foldl]
  · norm_num [processJoystickClassify]
    rw [abs_of_nonneg (by norm_num : (0:ℚ) ≤ 1/2),
      min_eq_left (by norm_num : (1:ℚ)/2 ≤ 1)]
  · norm_num [dispatchStep, pyInt]

/-- C10: `process_raw_emg` treats a bare scalar and a nonempty sequence whose first
element is that scalar identically: both succeed, store (0, v) in the new last buffer
row (column 1 holds the value), and classify the column-1 mean divided by 500 through
the same threshold pipeline. -/
theorem c10_raw_emg_shape_agnostic (buf : List (ℚ × ℚ)) (v : ℚ) (rest : List ℚ) :
    processRawEmg buf (.scalar v) = processRawEmg buf (.seq (v :: rest))
    ∧ processRawEmg buf (.scalar v)
        = some (rollPush buf (0, v),
            rawClassify (mean ((rollPush buf (0, v)).map Prod.snd) / 500)) :=
  ⟨rfl, rfl⟩

/-- C1 counterexample: with the drone grounded, the loop body on a saturating
joystick sample sends nothing at all rather than the zero vector. -/
theorem c1_counterexample :
    (emgStep ⟨emgBufferInit, false, 30⟩ [1, 0]).2 ≠ some (0, 0, 0, 0) := by
  simp [emgStep, dispatchStep]

/-- C1 (amended): when is_flying is false the EMG control loop body skips the send
block entirely: no rc command at all (zero or otherwise) is dispatched, regardless of
the classified intent and intensity. -/
theorem c1_grounded_sends_nothing (st : EmgState) (sample : List ℚ)
    (h : st.is_flying = false) : (emgStep st sample).2 = none := by
  rcases sample with _ | ⟨v, _ | ⟨w, rest⟩⟩
  · rfl
  · simp [emgStep, dispatchStep, h]
  · cases rest with
    | nil => simp [emgStep, dispatchStep, h]
    | cons z zs => simp [emgStep, dispatchStep, h]

/-- Witness for C1: a concrete grounded state with a forward-saturating sample. -/
theorem c1_grounded_sends_nothing_witness :
    (emgStep ⟨emgBufferInit, false, 30⟩ [1, 0]).2 = none :=
  c1_grounded_sends_nothing ⟨emgBufferInit, false, 30⟩ [1, 0] rfl

/-- One loop iteration copies is_flying through unchanged on every sample shape. -/
lemma emgStep_fst_is_flying (st : EmgState) (sample : List ℚ) :
    (emgStep st sample).1.is_flying = st.is_flying := by
  rcases sample with _ | ⟨v, _ | ⟨w, rest⟩⟩
  · rfl
  · rfl
  · cases rest <;> rfl

/-- C2: over any sequence of pulled samples the EMG control loop never mutates
is_flying; only the keyboard handler's takeoff/land transitions do. -/
theorem c2_loop_never_changes_flight_state (st : EmgState)
    (samples : List (List ℚ)) :
    (emgRun st samples).is_flying = st.is_flying := by
  induction samples generalizing st with
  | nil => rfl
  | cons s ss ih =>
      have h1 : emgRun st (s :: ss) = emgRun (emgStep st s).1 ss := rfl
      rw [h1, ih ((emgStep st s).1), emgStep_fst_is_flying]

/-- The intensity returned by the joystick classifier, as a function of the absolute
smoothed value: min(|x|, 1) outside the dead-zone, 0 inside. -/
lemma classify_snd_eq (x : ℚ) :
    (processJoystickClassify x).2 = if 1/5 < |x| then min |x| 1 else 0 := by
  by_cases h1 : x < -(1/5)
  · have hx : 1/5 < |x| := by
      rw [abs_of_neg (by linarith : x < 0)]; linarith
    rw [processJoystickClassify.eq_def, if_pos h1, if_pos hx]
  · by_cases h2 : x > 1/5
    · have hx : 1/5 < |x| := by
        rw [abs_of_pos (by linarith : 0 < x)]; exact h2
      rw [processJoystickClassify.eq_def, if_neg h1, if_pos h2, if_pos hx]
    · have hx : ¬ (1/5 < |x|) := by
        rw [not_lt, abs_le]
        constructor <;> linarith [not_lt.mp h1, not_lt.mp h2]
      rw [processJoystickClassify.eq_def, if_neg h1, if_neg h2, if_neg hx]

/-- C3: with threshold 0.2 the classifier returns Hover with intensity 0 on the whole
closed band [-0.2, 0.2] (both boundaries inclusive), Forward with intensity min(x, 1)
strictly above, Backward with intensity min(|x|, 1) strictly below; the intensity is
monotone non-decreasing in |x| and clamped to 1. -/
theorem c3_classifier_spec (x y : ℚ) :
    ((-(1/5) ≤ x ∧ x ≤ 1/5) → processJoystickClassify x = (.hover, 0))
    ∧ (1/5 < x → processJoystickClassify x = (.forward, min x 1))
    ∧ (x < -(1/5) → processJoystickClassify x = (.backward, min |x| 1))
    ∧ (|x| ≤ |y| → (processJoystickClassify x).2 ≤ (processJoystickClassify y).2)
    ∧ (processJoystickClassify x).2 ≤ 1 := by
  refine ⟨?_, ?_, ?_, ?_, ?_⟩
  · rintro ⟨hl, hr⟩
    rw [processJoystickClassify.eq_def, if_neg (not_lt.mpr hl),
      if_neg (not_lt.mpr hr)]
  · intro h
    rw [processJoystickClassify.eq_def, if_neg (not_lt.mpr (by linarith)),
      if_pos h, abs_of_pos (by linarith : 0 < x)]
  · intro h
    rw [processJoystickClassify.eq_def, if_pos h]
  · intro h
    rw [classify_snd_eq, classify_snd_eq]
    by_cases hx : 1/5 < |x|
    · rw [if_pos hx, if_pos (lt_of_lt_of_le hx h)]
      exact min_le_min h le_rfl
    · rw [if_neg hx]
      by_cases hy : 1/5 < |y|
      · rw [if_pos hy]
        exact le_min (abs_nonneg y) zero_le_one
      · rw [if_neg hy]
  · rw [classify_snd_eq]
    by_cases hx : 1/5 < |x|
    · rw [if_pos hx]; exact min_le_right _ _
    · rw [if_neg hx]; exact zero_le_one

/-- Witness for C3 at concrete inputs: 0 is Hover, 1/2 is Forward, -1/2 is Backward,
and the intensity at 1/4 is at most the intensity at 1/2. -/
theorem c3_classifier_spec_witness :
    processJoystickClassify (0:ℚ) = (.hover, 0)
    ∧ processJoystickClassify ((1:ℚ)/2) = (.forward, min ((1:ℚ)/2) 1)
    ∧ processJoystickClassify (-(1:ℚ)/2) = (.backward, min |(-(1:ℚ)/2)| 1)
    ∧ (processJoystickClassify ((1:ℚ)/4)).2 ≤ (processJoystickClassify ((1:ℚ)/2)).2 :=
  ⟨(c3_classifier_spec 0 0).1 (by norm_num),
   (c3_classifier_spec ((1:ℚ)/2) 0).2.1 (by norm_num),
   (c3_classifier_spec (-(1:ℚ)/2) 0).2.2.1 (by norm_num),
   (c3_classifier_spec ((1:ℚ)/4) ((1:ℚ)/2)).2.2.2.1 (by rw [abs_of_nonneg, abs_of_nonneg] <;> norm_num)⟩

/-- C5 counterexample: intensity 13/20 at maxSpeed 30 dispatches pitch 19 (Python
int() truncation of 19.5) while round(30 * 13/20) = 20. -/
theorem c5_counterexample :
    dispatchStep true .forward (13/20) 30 = some (0, 19, 0, 0)
    ∧ round ((30 : ℚ) * (13/20)) = 20
    ∧ ((19 : ℤ) ≠ 20) := by
  refine ⟨?_, ?_, by decide⟩
  · norm_num [dispatchStep, pyInt]
  · rw [show ((30:ℚ) * (13/20)) = 39/2 by norm_num, round_eq]
    norm_num

/-- C5 (amended): while airborne the dispatched vector is
(0, ±int(maxSpeed * intensity), 0, 0) where int() truncates toward zero (equal to the
floor whenever intensity and maxSpeed are nonnegative), positive for Forward, negative
for Backward, zero for Hover; roll, up/down and yaw are always 0. -/
theorem c5_dispatch_truncates (i : ℚ) (s : ℤ) :
    dispatchStep true .forward i s = some (0, pyInt ((s : ℚ) * i), 0, 0)
    ∧ dispatchStep true .backward i s = some (0, -(pyInt ((s : ℚ) * i)), 0, 0)
    ∧ dispatchStep true .hover i s = some (0, 0, 0, 0)
    ∧ (0 ≤ i → 0 ≤ s → pyInt ((s : ℚ) * i) = ⌊(s : ℚ) * i⌋) := by
  refine ⟨rfl, rfl, rfl, fun hi hs => ?_⟩
  rw [pyInt, if_pos (mul_nonneg (by exact_mod_cast hs) hi)]

/-- Witness for C5 at intensity 1/2 and maxSpeed 30. -/
theorem c5_dispatch_truncates_witness :
    dispatchStep true .forward (1/2) 30 = some (0, pyInt (((30:ℤ) : ℚ) * (1/2)), 0, 0)
    ∧ pyInt (((30:ℤ) : ℚ) * (1/2)) = ⌊((30:ℤ) : ℚ) * (1/2)⌋ :=
  ⟨(c5_dispatch_truncates (1/2) 30).1,
   (c5_dispatch_truncates (1/2) 30).2.2.2 (by norm_num) (by norm_num)⟩

/-- C8 counterexample: holding the counter-clockwise chord (r with shift) while
airborne issues yaw +30 then yaw -30 in the same frame, not a single yaw -30
command, because the r key also satisfies the clockwise branch; and releasing after
a CCW hold issues two yaw-0 commands, not one. -/
theorem c8_counterexample :
    (rotationStep 30 true true true false false).2 = [(0, 0, 0, 30), (0, 0, 0, -30)]
    ∧ (rotationStep 30 true true true false false).2 ≠ [(0, 0, 0, -30)]
    ∧ ((rotationStep 30 true false false true true).2).length = 2 := by
  decide

/-- C8 (amended): per frame while airborne, holding r without shift issues exactly
one yaw +maxSpeed command; holding r with shift (rotate-CCW) issues yaw +maxSpeed and
then yaw -maxSpeed, because the CCW chord contains the CW key; the first frame after
release issues one yaw-0 command after a pure CW hold but two after a CCW hold, and
later released frames issue nothing. -/
theorem c8_rotation_frames (s : ℤ) :
    rotationStep s true true false false false = ((true, false), [(0, 0, 0, s)])
    ∧ rotationStep s true true false true false = ((true, false), [(0, 0, 0, s)])
    ∧ rotationStep s true true true false false
        = ((true, true), [(0, 0, 0, s), (0, 0, 0, -s)])
    ∧ rotationStep s true true true true true
        = ((true, true), [(0, 0, 0, s), (0, 0, 0, -s)])
    ∧ rotationStep s true false false true false = ((false, false), [(0, 0, 0, 0)])
    ∧ rotationStep s true false false true true
        = ((false, false), [(0, 0, 0, 0), (0, 0, 0, 0)])
    ∧ rotationStep s true false false false false = ((false, false), []) :=
  ⟨rfl, rfl, rfl, rfl, rfl, rfl, rfl⟩

/-- The rolled buffer is never empty. -/
lemma rollPush_ne_nil (buf : List (ℚ × ℚ)) (row : ℚ × ℚ) :
    rollPush buf row ≠ [] := by
  simp [rollPush]

/-- Column 0 of the buffer after folding samples into a nonempty buffer is the tail
of the initial column 0 followed by the observed x values, keeping the original
length. -/
lemma foldl_rollPush_map_fst (samples : List (ℚ × ℚ)) :
    ∀ buf : List (ℚ × ℚ), buf ≠ [] →
      (samples.foldl rollPush buf).map Prod.fst
        = (buf.map Prod.fst ++ samples.map Prod.fst).drop samples.length := by
  induction samples with
  | nil => intro buf _; simp
  | cons s ss ih =>
      intro buf hbuf
      cases buf with
      | nil => exact absurd rfl hbuf
      | cons b bs =>
          have h1 := ih (rollPush (b :: bs) s) (rollPush_ne_nil _ _)
          rw [List.foldl_cons, h1]
          simp [rollPush, List.append_assoc]

/-- Sum of a list is at most its length times any upper bound of its members. -/
lemma list_sum_le_length_mul (l : List ℚ) (hi : ℚ) (h : ∀ x ∈ l, x ≤ hi) :
    l.sum ≤ l.length * hi := by
  induction l with
  | nil => simp
  | cons a t ih =>
      have ha : a ≤ hi := h a (List.mem_cons_self a t)
      have ht := ih fun x hx => h x (List.mem_cons_of_mem a hx)
      rw [List.sum_cons, List.length_cons]
      have hexp : ((t.length : ℚ) + 1) * hi = t.length * hi + hi := by ring
      push_cast
      rw [hexp]
      linarith

/-- Sum of a list is at least its length times any lower bound of its members. -/
lemma length_mul_le_list_sum (l : List ℚ) (lo : ℚ) (h : ∀ x ∈ l, lo ≤ x) :
    l.length * lo ≤ l.sum := by
  induction l with
  | nil => simp
  | cons a t ih =>
      have ha : lo ≤ a := h a (List.mem_cons_self a t)
      have ht := ih fun x hx => h x (List.mem_cons_of_mem a hx)
      rw [List.sum_cons, List.length_cons]
      have hexp : ((t.length : ℚ) + 1) * lo = t.length * lo + lo := by ring
      push_cast
      rw [hexp]
      linarith

/-- The mean of a nonempty list lies between any lower and upper bound of its
members. -/
lemma mean_mem_of_bounds (l : List ℚ) (lo hi : ℚ) (hne : l ≠ [])
    (h : ∀ x ∈ l, lo ≤ x ∧ x ≤ hi) : lo ≤ mean l ∧ mean l ≤ hi := by
  have hlen0 : 0 < l.length := List.length_pos.mpr hne
  have hlen : (0:ℚ) < l.length := by exact_mod_cast hlen0
  have hs1 := list_sum_le_length_mul l hi fun x hx => (h x hx).2
  have hs2 := length_mul_le_list_sum l lo fun x hx => (h x hx).1
  constructor
  · rw [mean, le_div_iff₀ hlen, mul_comm]
    exact hs2
  · rw [mean, div_le_iff₀ hlen, mul_comm]
    exact hs1

/-- C4 counterexample: a single observed sample with x value 1 smooths to 1/10
(the nine initial zeros still dominate the mean), which lies outside the interval
[1, 1] spanned by the observed axis values alone. -/
theorem c4_counterexample :
    smoothedOf (feedSamples [((1:ℚ), 0)]) = 1/10
    ∧ ¬ (1 ≤ smoothedOf (feedSamples [((1:ℚ), 0)])
          ∧ smoothedOf (feedSamples [((1:ℚ), 0)]) ≤ 1) := by
  have h : smoothedOf (feedSamples [((1:ℚ), 0)]) = 1/10 := by
    norm_num [smoothedOf, feedSamples, emgBufferInit, rollPush, mean,
      List.replicate, List.foldl]
  refine ⟨h, ?_⟩
  rw [h]
  norm_num

/-- C4 (amended): after feeding any non-empty sample sequence into the
zero-initialized 10-row buffer, the smoothed value lies between every lower and upper
bound of the ten averaged values, which are the last min(10, count) observed x values
padded with the initial zeros while count < 10 (for count ≥ 10 these are exactly the
last 10 observed values, as originally claimed). -/
theorem c4_smoothed_within_window (samples : List (ℚ × ℚ)) (lo hi : ℚ)
    (_hne : samples ≠ [])
    (hb : ∀ x ∈ bufferWindow samples, lo ≤ x ∧ x ≤ hi) :
    lo ≤ smoothedOf (feedSamples samples) ∧ smoothedOf (feedSamples samples) ≤ hi := by
  have hinit : emgBufferInit ≠ ([] : List (ℚ × ℚ)) := by simp [emgBufferInit]
  have hchar : (feedSamples samples).map Prod.fst = bufferWindow samples := by
    rw [feedSamples, foldl_rollPush_map_fst samples emgBufferInit hinit, bufferWindow]
    simp [emgBufferInit, List.map_replicate]
  have hwl : (bufferWindow samples).length = 10 := by
    simp [bufferWindow]
    omega
  have hwne : bufferWindow samples ≠ [] := by
    intro hnil
    rw [hnil] at hwl
    simp at hwl
  have hmean := mean_mem_of_bounds ((feedSamples samples).map Prod.fst) lo hi
    (by rw [hchar]; exact hwne) (by rw [hchar]; exact hb)
  exact hmean

/-- Witness for C4: one sample (1, 0) with bounds 0 and 1; the window is nine initial
zeros and the observed 1. -/
theorem c4_smoothed_within_window_witness :
    0 ≤ smoothedOf (feedSamples [((1:ℚ), 0)])
    ∧ smoothedOf (feedSamples [((1:ℚ), 0)]) ≤ 1 :=
  c4_smoothed_within_window [((1:ℚ), 0)] 0 1 (by simp)
    (by
      intro x hx
      simp [bufferWindow, List.replicate] at hx
      rcases hx with h | h <;> rw [h] <;> norm_num)

end TelloEMG
